/-
  Verification of the wire-codec layer of the `ring_api` client library.

  The development shallowly embeds the codec functions of the Rust source:
    * `src/requests/result.rs` — compact string codecs (`Atom`, `NodeId`,
      `Interaction`, the `-999.9` angle sentinel);
    * `src/settings.rs` — the settings wire mapper (`to_wire` / `from_wire`);
    * `src/multipart.rs` — the multipart form encoder.

  Machine floating-point values are embedded as exact rationals (`ℚ`,
  plus explicit `inf` / `nan` markers where the float grammar admits them);
  all inputs appearing in the theorems below are exactly representable in
  binary floating point, so the rational semantics agrees with the source.
  Fallible functions return `Except String`, carrying the source's error
  message strings.
-/
import Mathlib

namespace RingApi

/-! ### Basic character/string helpers -/

/-- Split a character list at every occurrence of `c`, keeping empty chunks;
the empty input yields `[[]]`.  This is the semantics of Rust's
`str::split(char)` (collected into a `Vec`). -/
def splitCh (c : Char) : List Char → List (List Char)
  | [] => [[]]
  | x :: xs =>
    if x = c then [] :: splitCh c xs
    else
      match splitCh c xs with
      | r :: rs => (x :: r) :: rs
      | [] => [[x]]

/-- Decidable equality of `Except` results, for evaluating codecs in proofs. -/
instance {ε α : Type} [DecidableEq ε] [DecidableEq α] : DecidableEq (Except ε α) := fun x y =>
  match x, y with
  | .ok a, .ok b =>
    if h : a = b then .isTrue (by rw [h]) else .isFalse (fun hh => h (Except.ok.inj hh))
  | .error a, .error b =>
    if h : a = b then .isTrue (by rw [h]) else .isFalse (fun hh => h (Except.error.inj hh))
  | .ok _, .error _ => .isFalse (fun hh => Except.noConfusion hh)
  | .error _, .ok _ => .isFalse (fun hh => Except.noConfusion hh)

/-- Is this `Except` an error? -/
def isErr {ε α : Type} : Except ε α → Bool
  | .error _ => true
  | .ok _ => false

/-- Lift an `Option` to an `Except`, attaching an error message
(the `?` operator on a fallible component parse in the source). -/
def ofOption {α : Type} (o : Option α) (msg : String) : Except String α :=
  match o with
  | some a => .ok a
  | none => .error msg

/-- Decimal digits, most significant first, with fuel (`natDec` supplies
enough fuel for the fuel never to run out). -/
def natDecAux : Nat → Nat → List Char
  | 0, _ => []
  | fuel + 1, n =>
    if n < 10 then [Char.ofNat (48 + n)]
    else natDecAux fuel (n / 10) ++ [Char.ofNat (48 + n % 10)]

/-- Decimal digits of a natural number, most significant first
(the output of Rust's `Display` for unsigned integers). -/
def natDec (n : Nat) : List Char := natDecAux (n + 1) n

/-- Decimal rendering of a signed integer (Rust's `Display` for `isize`). -/
def intDec (i : Int) : List Char :=
  if i < 0 then '-' :: natDec i.natAbs else natDec i.toNat

/-- Numeric value of an ASCII digit character. -/
def digitVal (c : Char) : Nat := c.toNat - 48

/-- Value of a most-significant-first digit list, with accumulator. -/
def digitsVal (acc : Nat) : List Char → Nat
  | [] => acc
  | c :: cs => digitsVal (acc * 10 + digitVal c) cs

/-- Parse a non-empty, all-digit character list into a natural number;
`none` otherwise. -/
def parseNatDigits (cs : List Char) : Option Nat :=
  if cs ≠ [] ∧ cs.all Char.isDigit then some (digitsVal 0 cs) else none

/-- Rust `usize::from_str`: an optional `'+'` sign followed by one or more
ASCII digits; a value above `usize::MAX` is a `PosOverflow` error
(`usize` is 64 bits wide on the library's target platforms). -/
def parseUsize (cs : List Char) : Option Nat :=
  (match cs with
   | [] => none
   | c :: rest => if c = '+' then parseNatDigits rest else parseNatDigits cs).bind
    fun n => if n < 2 ^ 64 then some n else none

/-- Rust `isize::from_str`: an optional sign followed by one or more ASCII
digits (the embedding ignores the machine-width range check). -/
def parseIsize (cs : List Char) : Option Int :=
  match cs with
  | [] => none
  | c :: rest =>
    if c = '+' then (parseNatDigits rest).map Int.ofNat
    else if c = '-' then (parseNatDigits rest).map (fun n => -(Int.ofNat n))
    else (parseNatDigits cs).map Int.ofNat

/-- Rust `char::from_str`: succeeds exactly on one-character strings. -/
def parseChar (cs : List Char) : Option Char :=
  match cs with
  | [c] => some c
  | _ => none

/-- Rust `bool::from_str`: exactly `"true"` or `"false"`. -/
def parseBoolRust (cs : List Char) : Option Bool :=
  if cs = "true".data then some true
  else if cs = "false".data then some false
  else none

/-! ### The Rust `f64` grammar, with exact rational values -/

/-- A parsed floating-point token: a finite value (kept exact as a
rational), a signed infinity, or a NaN. -/
inductive FVal where
  | num (q : ℚ)
  | inf (neg : Bool)
  | nan
  deriving DecidableEq, Repr

/-- Longest digit run at the head of the list, and the remainder. -/
def spanDigits (cs : List Char) : List Char × List Char :=
  match cs with
  | [] => ([], [])
  | c :: rest =>
    if c.isDigit then
      let (d, r) := spanDigits rest
      (c :: d, r)
    else ([], cs)

/-- ASCII lower-casing, for the case-insensitive `inf`/`nan` keywords. -/
def lowerAscii (c : Char) : Char :=
  if 'A' ≤ c ∧ c ≤ 'Z' then Char.ofNat (c.toNat + 32) else c

/-- Exponent suffix of the float grammar: `('e'|'E') Sign? Digit+`,
returning the signed exponent; `none` on an empty suffix. -/
def parseExpPart (cs : List Char) : Option Int :=
  match cs with
  | [] => some 0
  | e :: rest =>
    if e = 'e' ∨ e = 'E' then
      match rest with
      | '+' :: ds => (parseNatDigits ds).map Int.ofNat
      | '-' :: ds => (parseNatDigits ds).map (fun n => -(Int.ofNat n))
      | ds => (parseNatDigits ds).map Int.ofNat
    else none

/-- The exact rational value `(ip + fr / 10^flen) * 10^e` of a parsed
decimal literal, built with `mkRat` over integer arithmetic. -/
def qOfParts (ip fr flen : Nat) (e : Int) : ℚ :=
  mkRat (((ip * 10 ^ flen + fr : Nat) : Int) * 10 ^ e.toNat)
    (10 ^ flen * 10 ^ (-e).toNat)

/-- The unsigned part of the Rust `f64` grammar:
`Digit+ | Digit+ '.' Digit* | Digit* '.' Digit+`, then an optional
exponent. Returns the exact rational value. -/
def parseF64Body (cs : List Char) : Option ℚ :=
  let (intDs, rest) := spanDigits cs
  match rest with
  | '.' :: afterDot =>
    let (fracDs, rest2) := spanDigits afterDot
    if intDs = [] ∧ fracDs = [] then none
    else
      (parseExpPart rest2).map fun e =>
        qOfParts (digitsVal 0 intDs) (digitsVal 0 fracDs) fracDs.length e
  | _ =>
    if intDs = [] then none
    else (parseExpPart rest).map fun e => qOfParts (digitsVal 0 intDs) 0 0 e

/-- Rust `f64::from_str`:
`Sign? ('inf' | 'infinity' | 'nan' | Number)`, keywords matched
ASCII-case-insensitively.  The numeric value is kept exact as a rational
(the source rounds to the nearest `f64`; every value appearing in the
theorems below is exactly representable). -/
def parseF64 (cs : List Char) : Option FVal :=
  let (neg, body) :=
    match cs with
    | '+' :: rest => (false, rest)
    | '-' :: rest => (true, rest)
    | _ => (false, cs)
  let low := body.map lowerAscii
  if low = "inf".data ∨ low = "infinity".data then some (.inf neg)
  else if low = "nan".data then some FVal.nan
  else (parseF64Body body).map fun q => .num (if neg then -q else q)

/-! ### The `Atom` codec (`src/requests/result.rs`, `Atom::from_str`) -/

/-- Describes an atom either by its name or by its coordinates. -/
inductive Atom where
  | name (s : String)
  | coords (x y z : FVal)
  deriving DecidableEq, Repr

/-- `Atom::from_str`: split on `','`; exactly three parts must each parse
as a float (errors propagate); any other part count is a `Name` of the
whole original string. -/
def atomFromStr (s : String) : Except String Atom :=
  match splitCh ',' s.data with
  | [a, b, c] =>
    match parseF64 a, parseF64 b, parseF64 c with
    | some x, some y, some z => .ok (.coords x y z)
    | _, _, _ => .error "invalid float literal"
  | _ => .ok (.name s)

/-! ### The `NodeId` codec (`src/requests/result.rs`) -/

/-- An amino acid residue (closed enumeration from the source). -/
inductive Residue where
  | Alanine | Arginine | Asparagine | AsparticAcid | Cysteine
  | GlutamicAcid | Glutamine | Glycine | Homocysteine | Histidine
  | Homoserine | Isoleucine | Leucine | Lysine | Methionine
  | Norleucine | Norvaline | Ornithine | Penicillamine | Phenylalanine
  | Proline | Pyrrolysine | Selenocysteine | Serine | Threonine
  | Tryptophan | Tyrosine | Valine
  | AsparagineOrAsparticAcid | GlutamineOrGlutamicAcid | LeucineOrIsoleucine
  | Unknown
  deriving DecidableEq, Repr

/-- The fixed three-letter wire token of each residue
(the `serde(rename = ...)` attributes of the source). -/
def residueToken : Residue → String
  | .Alanine => "ALA" | .Arginine => "ARG" | .Asparagine => "ASN"
  | .AsparticAcid => "ASP" | .Cysteine => "CYS" | .GlutamicAcid => "GLU"
  | .Glutamine => "GLN" | .Glycine => "GLY" | .Homocysteine => "HCY"
  | .Histidine => "HIS" | .Homoserine => "HSE" | .Isoleucine => "ILE"
  | .Leucine => "LEU" | .Lysine => "LYS" | .Methionine => "MET"
  | .Norleucine => "NLE" | .Norvaline => "NVA" | .Ornithine => "ORN"
  | .Penicillamine => "PEN" | .Phenylalanine => "PHE" | .Proline => "PRO"
  | .Pyrrolysine => "PYL" | .Selenocysteine => "SEC" | .Serine => "SER"
  | .Threonine => "THR" | .Tryptophan => "TRP" | .Tyrosine => "TYR"
  | .Valine => "VAL" | .AsparagineOrAsparticAcid => "ASX"
  | .GlutamineOrGlutamicAcid => "GLX" | .LeucineOrIsoleucine => "XLE"
  | .Unknown => "XAA"

/-- The token table, in source declaration order. -/
def residueTable : List (String × Residue) :=
  [("ALA", .Alanine), ("ARG", .Arginine), ("ASN", .Asparagine),
   ("ASP", .AsparticAcid), ("CYS", .Cysteine), ("GLU", .GlutamicAcid),
   ("GLN", .Glutamine), ("GLY", .Glycine), ("HCY", .Homocysteine),
   ("HIS", .Histidine), ("HSE", .Homoserine), ("ILE", .Isoleucine),
   ("LEU", .Leucine), ("LYS", .Lysine), ("MET", .Methionine),
   ("NLE", .Norleucine), ("NVA", .Norvaline), ("ORN", .Ornithine),
   ("PEN", .Penicillamine), ("PHE", .Phenylalanine), ("PRO", .Proline),
   ("PYL", .Pyrrolysine), ("SEC", .Selenocysteine), ("SER", .Serine),
   ("THR", .Threonine), ("TRP", .Tryptophan), ("TYR", .Tyrosine),
   ("VAL", .Valine), ("ASX", .AsparagineOrAsparticAcid),
   ("GLX", .GlutamineOrGlutamicAcid), ("XLE", .LeucineOrIsoleucine),
   ("XAA", .Unknown)]

/-- `Residue::from_str`: exactly one of the closed wire tokens. -/
def residueFromChars (cs : List Char) : Except String Residue :=
  match residueTable.find? (fun p => p.1.data == cs) with
  | some p => .ok p.2
  | none => .error "unknown variant"

/-- A structured Node ID (`NodeId` in the source). -/
structure NodeId where
  chain_id : Char
  position : Int
  insertion_code : Char
  residue : Residue
  deriving DecidableEq, Repr

/-- Characters of the `Display` rendering of a `NodeId`:
`"{chain}:{position}:{insertion}:{residue}"`. -/
def nodeIdRenderChars (n : NodeId) : List Char :=
  n.chain_id :: ':' :: (intDec n.position ++ ':' :: n.insertion_code :: ':'
    :: (residueToken n.residue).data)

/-- `Display for NodeId`. -/
def nodeIdRender (n : NodeId) : String := ⟨nodeIdRenderChars n⟩

/-- `NodeId::from_str`: split on `':'`; exactly four fields, each parsed
by the component parser, errors propagating. -/
def nodeIdFromStr (s : String) : Except String NodeId :=
  match splitCh ':' s.data with
  | [va, vb, vc, vd] =>
    (ofOption (parseChar va) "invalid char").bind fun chain =>
    (ofOption (parseIsize vb) "invalid integer").bind fun pos =>
    (ofOption (parseChar vc) "invalid char").bind fun ins =>
    (residueFromChars vd).bind fun res =>
    .ok ⟨chain, pos, ins, res⟩
  | _ => .error "Node ID format must be chain:position:insertion:residue"

/-! ### The `Interaction` codec (`src/requests/result.rs`) -/

/-- The set of possible main interaction types. -/
inductive InteractionMainType where
  | HydrogenBond | VanDerWaals | Disulphide | Ionic | PiPiStack | PiCation
  deriving DecidableEq, Repr

/-- Wire token of a main interaction type. -/
def mainTypeToken : InteractionMainType → String
  | .HydrogenBond => "HBOND" | .VanDerWaals => "VDW" | .Disulphide => "SSBOND"
  | .Ionic => "IONIC" | .PiPiStack => "PIPISTACK" | .PiCation => "PICATION"

/-- `InteractionMainType::from_str`. -/
def mainTypeFromChars (cs : List Char) : Except String InteractionMainType :=
  if cs = "HBOND".data then .ok .HydrogenBond
  else if cs = "VDW".data then .ok .VanDerWaals
  else if cs = "SSBOND".data then .ok .Disulphide
  else if cs = "IONIC".data then .ok .Ionic
  else if cs = "PIPISTACK".data then .ok .PiPiStack
  else if cs = "PICATION".data then .ok .PiCation
  else .error "unknown variant"

/-- The set of possible interaction subtypes. -/
inductive InteractionSubType where
  | MainChain | SideChain | Ligand
  deriving DecidableEq, Repr

/-- Wire token of an interaction subtype. -/
def subTypeToken : InteractionSubType → String
  | .MainChain => "MC" | .SideChain => "SC" | .Ligand => "LIG"

/-- `InteractionSubType::from_str`. -/
def subTypeFromChars (cs : List Char) : Except String InteractionSubType :=
  if cs = "MC".data then .ok .MainChain
  else if cs = "SC".data then .ok .SideChain
  else if cs = "LIG".data then .ok .Ligand
  else .error "unknown variant"

/-- Descriptor of an interaction type. -/
structure Interaction where
  main_type : InteractionMainType
  subtype_1 : InteractionSubType
  subtype_2 : InteractionSubType
  deriving DecidableEq, Repr

/-- `Display for Interaction`: `"{main}:{sub1}_{sub2}"`. -/
def interactionRender (i : Interaction) : String :=
  ⟨(mainTypeToken i.main_type).data ++ ':'
    :: ((subTypeToken i.subtype_1).data ++ '_' :: (subTypeToken i.subtype_2).data)⟩

/-- `Interaction::from_str`: split on `':'` into exactly two parts, the
second split on `'_'` into exactly two parts; any other shape is an error. -/
def interactionFromStr (s : String) : Except String Interaction :=
  match splitCh ':' s.data with
  | [main, subs] =>
    (match splitCh '_' subs with
     | [u, v] =>
       (mainTypeFromChars main).bind fun m =>
       (subTypeFromChars u).bind fun s1 =>
       (subTypeFromChars v).bind fun s2 =>
       .ok ⟨m, s1, s2⟩
     | _ => .error "Interaction type format must be main:sub1_sub2")
  | _ => .error "Interaction type format must be main:sub1_sub2"

/-! ### The angle sentinel codec (`src/requests/result.rs`, `serde_angle`) -/

/-- A numeric wire value as seen by the angle deserializer: the JSON
decoder dispatches floating tokens to `visit_f64` and integer tokens to
`visit_i64` / `visit_u64`. -/
inductive JsonNum where
  | flt (q : ℚ)
  | int (n : Int)
  | uint (n : Nat)
  deriving DecidableEq, Repr

/-- The `-999.9` sentinel, as an exact rational. -/
def angleSentinel : ℚ := mkRat (-9999) 10

/-- `serde_angle::serialize`: `value.unwrap_or(-999.9)` emitted as `f64`. -/
def angleSerialize (v : Option ℚ) : ℚ := v.getD angleSentinel

/-- `serde_angle::deserialize` (the `AngleVisitor`): a float equal to the
sentinel becomes `none`; any other float, and every integer, becomes
`some`. -/
def angleDeserialize : JsonNum → Option ℚ
  | .flt q => if q = angleSentinel then none else some q
  | .int n => some (n : ℚ)
  | .uint n => some (n : ℚ)

/-! ### Settings (`src/settings.rs`) -/

/-- Chain ID for computing a single chain, or all chains. -/
inductive Chain where
  | All
  | Id (c : Char)
  deriving DecidableEq, Repr

/-- Which atoms to consider when computing interactions. -/
inductive NetworkPolicy where
  | Closest | Lollipop | CAlpha | CBeta
  deriving DecidableEq, Repr

/-- Which interaction(s) to return for each edge. -/
inductive InteractionType where
  | All | Multiple | MostEnergetic | NoSpecific
  deriving DecidableEq, Repr

/-- Distance thresholds (`f32` fields embedded as exact rationals). -/
structure Thresholds where
  hydrogen : ℚ
  van_der_waals : ℚ
  ionic : ℚ
  pi_pi : ℚ
  pi_cation : ℚ
  disulphide : ℚ
  deriving DecidableEq, Repr

/-- `Thresholds::strict`, the default: `3.5, 0.5, 4.0, 6.5, 5.0, 2.5`. -/
def Thresholds.strict : Thresholds :=
  ⟨mkRat 35 10, mkRat 5 10, mkRat 4 1, mkRat 65 10, mkRat 5 1, mkRat 25 10⟩

/-- Parameters for submitting a job. -/
structure Settings where
  chain : Chain
  network_policy : NetworkPolicy
  interactions : InteractionType
  thresholds : Thresholds
  sequence_separation : Nat
  skip_hetero : Bool
  skip_water : Bool
  skip_energy : Bool
  perform_msa : Bool
  deriving DecidableEq, Repr

/-- `Default for Settings`. -/
def Settings.default : Settings :=
  { chain := .All
    network_policy := .Closest
    interactions := .Multiple
    thresholds := .strict
    sequence_separation := 3
    skip_hetero := false
    skip_water := true
    skip_energy := true
    perform_msa := false }

/-- A value in the flattened settings wire map: a string, or the one
character emitted by `serialize_char` for a single-chain ID. -/
inductive WVal where
  | vstr (s : String)
  | vchar (c : Char)
  deriving DecidableEq, Repr

/-- Read a wire value as a string (`next_value::<String>()`; serde's
default `visit_char` forwards a char as a one-character string). -/
def WVal.asString : WVal → String
  | .vstr s => s
  | .vchar c => String.mk [c]

/-- Rust `bool` `Display`: `"true"` / `"false"`. -/
def boolStr (b : Bool) : String := if b then "true" else "false"

/-- Wire token of a network policy (`serde(rename = ...)`). -/
def npToken : NetworkPolicy → String
  | .Closest => "closest" | .Lollipop => "lollipop"
  | .CAlpha => "ca" | .CBeta => "cb"

/-- Deserialize a network policy from its wire token. -/
def npFromString (s : String) : Except String NetworkPolicy :=
  if s = "closest" then .ok .Closest
  else if s = "lollipop" then .ok .Lollipop
  else if s = "ca" then .ok .CAlpha
  else if s = "cb" then .ok .CBeta
  else .error "unknown variant"

/-- `Serialize for Chain`: `"all"` or the single chain character. -/
def chainSer : Chain → WVal
  | .All => .vstr "all"
  | .Id c => .vchar c

/-- `Deserialize for Chain` (the `ChainVisitor`): a char value is a chain
ID; a string is `"all"`, or must be a single character. -/
def chainFromWVal : WVal → Except String Chain
  | .vchar c => .ok (.Id c)
  | .vstr s =>
    if s = "all" then .ok .All
    else
      match s.data with
      | [c] => .ok (.Id c)
      | [] => .error "empty string is not a valid chain ID"
      | _ => .error "multi-letter string is not a valid chain ID"

/-! #### The thresholds JSON-in-string sub-codec (`serde_json` on `Thresholds`) -/

/-- Fractional decimal digits of `r / den` (with `r < den`), produced by
long division, fuelled.  Every binary floating-point value has a finite
decimal expansion, so the fuel is never exhausted on values originating
from `f32`. -/
def fracDigitsND (den : Nat) : Nat → Nat → List Char
  | 0, _ => []
  | fuel + 1, r =>
    if r = 0 then []
    else
      let r10 := r * 10
      Char.ofNat (48 + r10 / den) :: fracDigitsND den fuel (r10 % den)

/-- Decimal rendering of a rational with at least one fractional digit —
the shape `serde_json` (ryu) produces for the `f32` threshold values
(e.g. `4` renders as `"4.0"`, `3.5` as `"3.5"`). -/
def renderQ (q : ℚ) : String :=
  let a := q.num.natAbs
  let ip := a / q.den
  let fd := fracDigitsND q.den 64 (a % q.den)
  (if q.num < 0 then "-" else "") ++ ⟨natDec ip⟩ ++ "."
    ++ (if fd = [] then "0" else ⟨fd⟩)

/-- `serde_json::to_string(&thresholds)`: the compact JSON object with the
renamed keys, in declaration order. -/
def thresholdsToJson (t : Thresholds) : String :=
  "\x7b\"hbond\":" ++ renderQ t.hydrogen ++
  ",\"vdw\":" ++ renderQ t.van_der_waals ++
  ",\"ionic\":" ++ renderQ t.ionic ++
  ",\"pipi\":" ++ renderQ t.pi_pi ++
  ",\"pication\":" ++ renderQ t.pi_cation ++
  ",\"disulphide\":" ++ renderQ t.disulphide ++ "\x7d"

/-- Skip JSON whitespace. -/
def skipWs : List Char → List Char
  | [] => []
  | c :: rest =>
    if c = ' ' ∨ c = '\t' ∨ c = '\n' ∨ c = '\r' then skipWs rest else c :: rest

/-- Parse a JSON string literal into its contents, rejecting raw control
characters; escape sequences are not interpreted (no member name the
codec compares against contains one), so an escaped member name is not
modelled.  Returns the contents and the remainder. -/
def parseJsonString (cs : List Char) : Option (String × List Char) :=
  match cs with
  | '"' :: rest => go rest []
  | _ => none
where
  go : List Char → List Char → Option (String × List Char)
    | [], _ => none
    | c :: rest, acc =>
      if c = '"' then some (⟨acc.reverse⟩, rest)
      else if c = '\\' then none
      else if c.toNat < 32 then none
      else go rest (c :: acc)

/-- Parse a JSON exponent suffix, if present; returns the signed exponent
and the remainder. -/
def parseJsonExp (cs : List Char) : Option (Int × List Char) :=
  match cs with
  | [] => some (0, [])
  | e :: rest =>
    if e = 'e' ∨ e = 'E' then
      let (sgn, r2) : Int × List Char :=
        match rest with
        | '+' :: r => (1, r)
        | '-' :: r => (-1, r)
        | _ => (1, rest)
      let (ds, r3) := spanDigits r2
      if ds = [] then none else some (sgn * (digitsVal 0 ds : Int), r3)
    else some (0, cs)

/-- Parse a JSON number (`-? int frac? exp?`, no leading zeros); returns
its exact rational value and the remainder. -/
def parseJsonNumber (cs : List Char) : Option (ℚ × List Char) :=
  let (neg, cs1) : Bool × List Char :=
    match cs with
    | '-' :: r => (true, r)
    | _ => (false, cs)
  let (ids, cs2) := spanDigits cs1
  if ids = [] then none
  else if 1 < ids.length ∧ ids.head? = some '0' then none
  else
    let withFrac : Option (ℚ × List Char) :=
      match cs2 with
      | '.' :: afterDot =>
        let (fds, cs3) := spanDigits afterDot
        if fds = [] then none
        else
          (parseJsonExp cs3).map fun (e, r) =>
            (qOfParts (digitsVal 0 ids) (digitsVal 0 fds) fds.length e, r)
      | _ =>
        (parseJsonExp cs2).map fun (e, r) => (qOfParts (digitsVal 0 ids) 0 0 e, r)
    withFrac.map fun (q, r) => (if neg then -q else q, r)

/-- Strip an exact literal from the head of the input, if present. -/
def dropExact : List Char → List Char → Option (List Char)
  | [], cs => some cs
  | p :: ps, c :: cs => if c = p then dropExact ps cs else none
  | _ :: _, [] => none

/-- Is this character an ASCII hexadecimal digit? -/
def isHexDigitCh (c : Char) : Bool :=
  if c.isDigit then true
  else if 'a' ≤ c ∧ c ≤ 'f' then true
  else if 'A' ≤ c ∧ c ≤ 'F' then true
  else false

/-- Skip the body of a JSON string literal (after the opening quote),
accepting the JSON escape forms and rejecting raw control characters;
returns the remainder after the closing quote. -/
def skipJsonStringBody : Nat → List Char → Option (List Char)
  | 0, _ => none
  | fuel + 1, cs =>
    match cs with
    | [] => none
    | c :: rest =>
      if c = '"' then some rest
      else if c = '\\' then
        match rest with
        | 'u' :: h1 :: h2 :: h3 :: h4 :: rest2 =>
          if isHexDigitCh h1 ∧ isHexDigitCh h2 ∧ isHexDigitCh h3 ∧ isHexDigitCh h4 then
            skipJsonStringBody fuel rest2
          else none
        | e :: rest2 =>
          if e = '"' ∨ e = '\\' ∨ e = '/' ∨ e = 'b' ∨ e = 'f' ∨ e = 'n' ∨ e = 'r' ∨ e = 't' then
            skipJsonStringBody fuel rest2
          else none
        | [] => none
      else if c.toNat < 32 then none
      else skipJsonStringBody fuel rest

mutual

/-- Skip one JSON value of any kind (string, number, object, array,
`true` / `false` / `null`) without interpreting it — how serde discards
the value of an ignored unknown field; returns the remainder.  Fuelled
by the input length. -/
def skipJsonValue : Nat → List Char → Option (List Char)
  | 0, _ => none
  | fuel + 1, cs =>
    match skipWs cs with
    | [] => none
    | c :: rest =>
      if c = '"' then skipJsonStringBody (rest.length + 1) rest
      else if c = '\x7b' then
        match skipWs rest with
        | '\x7d' :: rest2 => some rest2
        | _ => skipJsonMembers fuel rest
      else if c = '[' then
        match skipWs rest with
        | ']' :: rest2 => some rest2
        | _ => skipJsonElems fuel rest
      else
        match dropExact "true".data (c :: rest) with
        | some r => some r
        | none =>
          match dropExact "false".data (c :: rest) with
          | some r => some r
          | none =>
            match dropExact "null".data (c :: rest) with
            | some r => some r
            | none => (parseJsonNumber (c :: rest)).map Prod.snd

/-- Skip the members of a JSON object (after the opening brace). -/
def skipJsonMembers : Nat → List Char → Option (List Char)
  | 0, _ => none
  | fuel + 1, cs =>
    match skipWs cs with
    | '"' :: rest =>
      (match skipJsonStringBody (rest.length + 1) rest with
       | none => none
       | some rest1 =>
         match skipWs rest1 with
         | ':' :: rest2 =>
           (match skipJsonValue fuel rest2 with
            | none => none
            | some rest3 =>
              match skipWs rest3 with
              | ',' :: rest4 => skipJsonMembers fuel rest4
              | '\x7d' :: rest4 => some rest4
              | _ => none)
         | _ => none)
    | _ => none

/-- Skip the elements of a JSON array (after the opening bracket). -/
def skipJsonElems : Nat → List Char → Option (List Char)
  | 0, _ => none
  | fuel + 1, cs =>
    match skipJsonValue fuel cs with
    | none => none
    | some rest =>
      match skipWs rest with
      | ',' :: rest2 => skipJsonElems fuel rest2
      | ']' :: rest2 => some rest2
      | _ => none

end

/-- Update the threshold field selected by a JSON key; unknown keys are
ignored (serde's default for derived structs). -/
def setThrField (t : Thresholds) (key : String) (q : ℚ) : Thresholds :=
  if key = "hbond" then { t with hydrogen := q }
  else if key = "vdw" then { t with van_der_waals := q }
  else if key = "ionic" then { t with ionic := q }
  else if key = "pipi" then { t with pi_pi := q }
  else if key = "pication" then { t with pi_cation := q }
  else if key = "disulphide" then { t with disulphide := q }
  else t

/-- The known threshold member names (the `serde(rename = ...)` keys). -/
def thrKeys : List String := ["hbond", "vdw", "ionic", "pipi", "pication", "disulphide"]

/-- Parse the members of a thresholds JSON object (after the opening
brace), fuelled by the input length.  A known member must be a number
and may occur at most once (serde's derived decoder fails with a
`duplicate field` error otherwise); an unknown member's value, of any
JSON kind, is skipped without interpretation. -/
def thrFieldsAux : Nat → List String → Thresholds → List Char → Option Thresholds
  | 0, _, _, _ => none
  | fuel + 1, seen, t, cs =>
    match parseJsonString (skipWs cs) with
    | none => none
    | some (key, rest) =>
      match skipWs rest with
      | ':' :: rest2 =>
        if key ∈ thrKeys then
          if key ∈ seen then none
          else
            match parseJsonNumber (skipWs rest2) with
            | none => none
            | some (q, rest3) =>
              match skipWs rest3 with
              | ',' :: rest4 => thrFieldsAux fuel (key :: seen) (setThrField t key q) rest4
              | '\x7d' :: rest4 =>
                if skipWs rest4 = [] then some (setThrField t key q) else none
              | _ => none
        else
          match skipJsonValue (rest2.length + 1) rest2 with
          | none => none
          | some rest3 =>
            match skipWs rest3 with
            | ',' :: rest4 => thrFieldsAux fuel seen t rest4
            | '\x7d' :: rest4 => if skipWs rest4 = [] then some t else none
            | _ => none
      | _ => none

/-- `serde_json::from_str::<Thresholds>`: a JSON object whose known
members are numbers, each occurring at most once; missing fields take
their defaults (`#[serde(default)]`), unknown members of any JSON kind
are ignored. -/
def thresholdsFromJson (s : String) : Option Thresholds :=
  match skipWs s.data with
  | '\x7b' :: rest =>
    (match skipWs rest with
     | '\x7d' :: rest2 => if skipWs rest2 = [] then some .strict else none
     | _ => thrFieldsAux (rest.length + 1) [] .strict rest)
  | _ => none

/-! #### The settings wire mapper (`Serialize` / `Deserialize for Settings`) -/

/-- `Serialize for Settings` (`to_wire`): the flattened, ordered,
stringly-typed settings map. -/
def to_wire (s : Settings) : List (String × WVal) :=
  [("ringmd", .vstr "false"),
   ("chain", chainSer s.chain),
   ("networkPolicy", .vstr (npToken s.network_policy)),
   ("seqSeparation", .vstr ⟨natDec s.sequence_separation⟩),
   ("thresholds", .vstr (thresholdsToJson s.thresholds)),
   ("nohetero", .vstr (boolStr s.skip_hetero)),
   ("nowater", .vstr (boolStr s.skip_water)),
   ("noenergy", .vstr (boolStr s.skip_energy))]
  ++ (if s.perform_msa then [("msa", WVal.vstr "true")] else [])
  ++ (match s.interactions with
      | .All => [("allEdges", WVal.vstr "true")]
      | .Multiple => []
      | .MostEnergetic => [("onlyFirstEdge", WVal.vstr "true")]
      | .NoSpecific => [("nospecific", WVal.vstr "true")])

/-- One iteration of `SettingsVisitor::visit_map`: dispatch on the key,
read (and possibly parse) the value, update the settings record.
Unrecognized keys read and discard their value. -/
def visitStep (st : Settings) (e : String × WVal) : Except String Settings :=
  if e.1 = "chain" then
    (chainFromWVal e.2).map fun c => { st with chain := c }
  else if e.1 = "networkPolicy" then
    (npFromString e.2.asString).map fun np => { st with network_policy := np }
  else if e.1 = "allEdges" then .ok { st with interactions := .All }
  else if e.1 = "onlyFirstEdge" then .ok { st with interactions := .MostEnergetic }
  else if e.1 = "nospecific" then .ok { st with interactions := .NoSpecific }
  else if e.1 = "seqSeparation" then
    (ofOption (parseUsize e.2.asString.data) "invalid digit found in string").map
      fun n => { st with sequence_separation := n }
  else if e.1 = "thresholds" then
    (ofOption (thresholdsFromJson e.2.asString) "invalid thresholds JSON").map
      fun t => { st with thresholds := t }
  else if e.1 = "nohetero" then
    (ofOption (parseBoolRust e.2.asString.data) "provided string was not a bool").map
      fun b => { st with skip_hetero := b }
  else if e.1 = "nowater" then
    (ofOption (parseBoolRust e.2.asString.data) "provided string was not a bool").map
      fun b => { st with skip_water := b }
  else if e.1 = "noenergy" then
    (ofOption (parseBoolRust e.2.asString.data) "provided string was not a bool").map
      fun b => { st with skip_energy := b }
  else if e.1 = "msa" then .ok { st with perform_msa := true }
  else .ok st

/-- Fold of `visitStep` over the wire map entries, starting from a given
settings record. -/
def fromWireAux (st : Settings) : List (String × WVal) → Except String Settings
  | [] => .ok st
  | e :: rest =>
    match visitStep st e with
    | .ok st' => fromWireAux st' rest
    | .error msg => .error msg

/-- `Deserialize for Settings` (`from_wire`): iterate the map over the
default settings. -/
def from_wire (es : List (String × WVal)) : Except String Settings :=
  fromWireAux Settings.default es

/-! ### The multipart form encoder (`src/multipart.rs`) -/

/-- One part of a multipart form: a text part, a file part
(`Part::text(contents).file_name(name)`), or a raw byte part
(`Part::bytes(blob)`, which has no file name). -/
inductive FormPart where
  | text (key value : String)
  | filePart (key contents fileName : String)
  | blob (key : String) (bytes : List Nat)
  deriving DecidableEq, Repr

/-- A serializable value entering the encoder: scalars, bytes, optionals
(`noneV` / `someV`), the two-field `$FormFile` tuple struct, and a keyed
record (map/struct). -/
inductive Value where
  | unit
  | bool (b : Bool)
  | int (n : Int)
  | str (s : String)
  | bytes (bs : List Nat)
  | noneV
  | someV (v : Value)
  | namedFile (contents fileName : String)
  | record (entries : List (String × Value))
  deriving Repr

/-- The encoder's state (`struct FormSerializer`). -/
structure FormSer where
  serializingMap : Bool
  serializingFile : Bool
  currentKey : Option String
  currentFileContents : Option String
  form : List FormPart
  deriving Repr

/-- `FormSerializer::default()`. -/
def FormSer.init : FormSer :=
  { serializingMap := false
    serializingFile := false
    currentKey := none
    currentFileContents := none
    form := [] }

/-- `FormSerializer::serialize_form_string`: a string is a key when no key
is pending, a text-part value otherwise; inside a file it is first the
contents and then the file name. -/
def serializeFormString (st : FormSer) (string : String) : Except String FormSer :=
  if st.serializingMap then
    match st.currentKey with
    | some key =>
      if st.serializingFile then
        match st.currentFileContents with
        | some contents =>
          .ok { st with
            currentKey := none
            currentFileContents := none
            form := st.form ++ [.filePart key contents string] }
        | none =>
          .ok { st with currentKey := some key, currentFileContents := some string }
      else
        .ok { st with currentKey := none, form := st.form ++ [.text key string] }
    | none => .ok { st with currentKey := some string }
  else
    .error "top-level value to be serialized as multipart should be a map or a struct"

/-- `FormSerializer::serialize_form_blob`: a byte blob may only be a
value, yielding a raw byte part. -/
def serializeFormBlob (st : FormSer) (blob : List Nat) : Except String FormSer :=
  if st.serializingMap then
    match st.currentKey with
    | some key =>
      .ok { st with currentKey := none, form := st.form ++ [.blob key blob] }
    | none => .error "binary blob can't be serialized as a key, only as a value"
  else
    .error "top-level value to be serialized as multipart should be a map or a struct"

mutual

/-- The `Serializer` impl for `&mut FormSerializer`: dispatch on the shape
of the value.  Scalars stringify (`None`/unit as `"null"`); `$FormFile`
follows the tuple-struct protocol; a record follows the map protocol. -/
def serializeValue (st : FormSer) (v : Value) : Except String FormSer :=
  match v with
  | .unit => serializeFormString st "null"
  | .bool b => serializeFormString st (if b then "true" else "false")
  | .int n => serializeFormString st ⟨intDec n⟩
  | .str s => serializeFormString st s
  | .bytes bs => serializeFormBlob st bs
  | .noneV => serializeFormString st "null"
  | .someV v' => serializeValue st v'
  | .namedFile contents fileName =>
    -- serialize_tuple_struct "$FormFile" 2 (name and len checks pass by shape)
    if !st.serializingMap then
      .error "can't serialize tuple struct at top level"
    else if st.currentKey = none then
      .error "can't serialize tuple struct as field name"
    else if st.serializingFile then
      .error "can't serialize a tuple struct inside a file"
    else
      match serializeFormString { st with serializingFile := true } contents with
      | .error msg => .error msg
      | .ok st1 =>
        match serializeFormString st1 fileName with
        | .error msg => .error msg
        | .ok st2 =>
          -- SerializeTupleStruct::end
          if st2.currentKey.isSome then
            .error "missing contents from file form part"
          else if st2.currentFileContents.isSome then
            .error "missing file_name from file form part"
          else .ok { st2 with serializingFile := false }
  | .record entries =>
    -- serialize_map
    if st.serializingMap then
      .error "can't serialize a map-like value as multipart unless it's at the top level"
    else
      match serializeEntries { st with serializingMap := true } entries with
      | .error msg => .error msg
      | .ok st' =>
        -- SerializeMap::end
        if st'.currentKey = none then .ok st' else .error "missing value after key"

/-- The `SerializeMap` protocol over a record's entries: each key may only
be serialized when none is pending, each value only when one is. -/
def serializeEntries (st : FormSer) : List (String × Value) → Except String FormSer
  | [] => .ok st
  | (k, v) :: rest =>
    -- serialize_key
    if st.currentKey = none then
      match serializeFormString st k with
      | .error msg => .error msg
      | .ok st1 =>
        -- serialize_value
        if st1.currentKey.isSome then
          match serializeValue st1 v with
          | .error msg => .error msg
          | .ok st2 => serializeEntries st2 rest
        else .error "can't serialize value without first serializing a key"
    else .error "can't serialize two keys in a row without a value"

end

/-- `to_form`: run the serializer from the initial state and extract the
built form. -/
def toForm (v : Value) : Except String (List FormPart) :=
  (serializeValue FormSer.init v).map (·.form)

/-! ### Auxiliary notions used by the statements below -/

/-- First value stored under a key in a wire map (the keys `to_wire`
emits are pairwise distinct, so this is the entry for the key). -/
def wireLookup (key : String) : List (String × WVal) → Option WVal
  | [] => none
  | (k, v) :: rest => if k = key then some v else wireLookup key rest

/-- The keys recognized by the settings deserializer; every other key is
read and discarded. -/
def recognizedKeys : List String :=
  ["chain", "networkPolicy", "allEdges", "onlyFirstEdge", "nospecific",
   "seqSeparation", "thresholds", "nohetero", "nowater", "noenergy", "msa"]

/-- A wire-map entry is well formed when, if its key is recognized and
carries a parsed value, that value parses. -/
def entryOk (e : String × WVal) : Prop :=
  (e.1 = "chain" → isErr (chainFromWVal e.2) = false) ∧
  (e.1 = "networkPolicy" → isErr (npFromString e.2.asString) = false) ∧
  (e.1 = "seqSeparation" → (parseUsize e.2.asString.data).isSome = true) ∧
  (e.1 = "thresholds" → (thresholdsFromJson e.2.asString).isSome = true) ∧
  ((e.1 = "nohetero" ∨ e.1 = "nowater" ∨ e.1 = "noenergy") →
    (parseBoolRust e.2.asString.data).isSome = true)

instance (e : String × WVal) : Decidable (entryOk e) := by
  unfold entryOk; infer_instance

/-- The interaction-type variant selected by one of the three
presence-flag keys, if the entry carries one. -/
def selOf (e : String × WVal) : Option InteractionType :=
  if e.1 = "allEdges" then some .All
  else if e.1 = "onlyFirstEdge" then some .MostEnergetic
  else if e.1 = "nospecific" then some .NoSpecific
  else none

/-- The variant selected by the last selection-flag entry of a map, if
any. -/
def lastSel : List (String × WVal) → Option InteractionType
  | [] => none
  | e :: es =>
    match lastSel es with
    | some t => some t
    | none => selOf e

/-! ## Lemmas about the helpers -/

/-- Splitting never yields an empty chunk list. -/
theorem splitCh_ne_nil (c : Char) (cs : List Char) : splitCh c cs ≠ [] := by
  induction cs with
  | nil => simp [splitCh]
  | cons x xs ih =>
    simp only [splitCh]
    split
    · simp
    · cases h : splitCh c xs with
      | nil => simp
      | cons r rs => simp

/-- Appending a separator-free chunk, a separator, and a rest prepends the
chunk to the split of the rest. -/
theorem splitCh_append (c : Char) (l rest : List Char) (hl : c ∉ l) :
    splitCh c (l ++ c :: rest) = l :: splitCh c rest := by
  induction l with
  | nil => simp [splitCh]
  | cons x xs ih =>
    simp only [List.mem_cons, not_or] at hl
    have hx : ¬ x = c := fun h => hl.1 h.symm
    simp only [List.cons_append, splitCh, if_neg hx]
    rw [show xs ++ c :: rest = xs.append (c :: rest) from rfl] at ih
    rw [ih hl.2]

/-- Splitting a separator-free list yields the single chunk. -/
theorem splitCh_of_not_mem (c : Char) (l : List Char) (hl : c ∉ l) :
    splitCh c l = [l] := by
  induction l with
  | nil => rfl
  | cons x xs ih =>
    simp only [List.mem_cons, not_or] at hl
    have hx : ¬ x = c := fun h => hl.1 h.symm
    simp only [splitCh, if_neg hx]
    rw [ih hl.2]
/-- Fuel irrelevance for the decimal-digit helper: any fuel above the
number suffices. -/
theorem natDecAux_irrel (n : Nat) : ∀ f g, n < f → n < g → natDecAux f n = natDecAux g n := by
  induction n using Nat.strong_induction_on with
  | _ n ih =>
    intro f g hf hg
    cases f with
    | zero => omega
    | succ f' =>
      cases g with
      | zero => omega
      | succ g' =>
        show (if n < 10 then [Char.ofNat (48 + n)]
              else natDecAux f' (n / 10) ++ [Char.ofNat (48 + n % 10)])
          = (if n < 10 then [Char.ofNat (48 + n)]
              else natDecAux g' (n / 10) ++ [Char.ofNat (48 + n % 10)])
        by_cases h10 : n < 10
        · rw [if_pos h10, if_pos h10]
        · rw [if_neg h10, if_neg h10]
          have hlt : n / 10 < n := Nat.div_lt_self (by omega) (by omega)
          rw [ih (n / 10) hlt f' g' (by omega) (by omega)]

/-- The recursion equation of `natDec`. -/
theorem natDec_eq (n : Nat) :
    natDec n = if n < 10 then [Char.ofNat (48 + n)]
               else natDec (n / 10) ++ [Char.ofNat (48 + n % 10)] := by
  show (if n < 10 then [Char.ofNat (48 + n)]
        else natDecAux n (n / 10) ++ [Char.ofNat (48 + n % 10)]) = _
  by_cases h10 : n < 10
  · rw [if_pos h10, if_pos h10]
  · rw [if_neg h10, if_neg h10]
    have hlt : n / 10 < n := Nat.div_lt_self (by omega) (by omega)
    rw [natDecAux_irrel (n / 10) n (n / 10 + 1) hlt (by omega)]
    rfl

/-- Decimal rendering is never empty. -/
theorem natDec_ne_nil (n : Nat) : natDec n ≠ [] := by
  rw [natDec_eq]
  split
  · simp
  · simp

/-- Every character of a decimal rendering is an ASCII digit. -/
theorem mem_natDec_isDigit (n : Nat) : ∀ c ∈ natDec n, c.isDigit := by
  induction n using Nat.strong_induction_on with
  | _ n ih =>
    rw [natDec_eq]
    split
    · rename_i h
      intro c hc
      simp only [List.mem_singleton] at hc
      subst hc
      interval_cases n <;> decide
    · rename_i h
      intro c hc
      rw [List.mem_append] at hc
      rcases hc with hc | hc
      · exact ih (n / 10) (Nat.div_lt_self (by omega) (by omega)) c hc
      · simp only [List.mem_singleton] at hc
        subst hc
        have h10 : n % 10 < 10 := Nat.mod_lt _ (by omega)
        set m := n % 10 with hm
        interval_cases m <;> decide

/-- Value of a digit list extended by one digit. -/
theorem digitsVal_append (acc : Nat) (l : List Char) (c : Char) :
    digitsVal acc (l ++ [c]) = (digitsVal acc l) * 10 + digitVal c := by
  induction l generalizing acc with
  | nil => rfl
  | cons x xs ih => exact ih (acc * 10 + digitVal x)

/-- Numeric value of the digit character of `m < 10`. -/
theorem digitVal_ofNat (m : Nat) (h : m < 10) : digitVal (Char.ofNat (48 + m)) = m := by
  interval_cases m <;> rfl

/-- The decimal rendering evaluates back to the number. -/
theorem digitsVal_natDec (n : Nat) : digitsVal 0 (natDec n) = n := by
  induction n using Nat.strong_induction_on with
  | _ n ih =>
    rw [natDec_eq]
    split
    · rename_i h
      show 0 * 10 + digitVal (Char.ofNat (48 + n)) = n
      rw [digitVal_ofNat n h]
      omega
    · rename_i h
      rw [digitsVal_append, ih (n / 10) (Nat.div_lt_self (by omega) (by omega)),
        digitVal_ofNat _ (Nat.mod_lt _ (by omega))]
      omega

/-- Parsing the decimal rendering of a natural number recovers it. -/
theorem parseNatDigits_natDec (n : Nat) : parseNatDigits (natDec n) = some n := by
  unfold parseNatDigits
  rw [if_pos, digitsVal_natDec]
  refine ⟨natDec_ne_nil n, ?_⟩
  rw [List.all_eq_true]
  intro c hc
  exact mem_natDec_isDigit n c hc

/-- A digit character is not a sign character. -/
theorem isDigit_not_sign (c : Char) (h : c.isDigit) : c ≠ '+' ∧ c ≠ '-' := by
  constructor <;> rintro rfl <;> revert h <;> decide

/-- Parsing the decimal rendering of an integer recovers it. -/
theorem parseIsize_intDec (i : Int) : parseIsize (intDec i) = some i := by
  unfold intDec
  split
  · rename_i h
    show parseIsize ('-' :: natDec i.natAbs) = some i
    have e : parseIsize ('-' :: natDec i.natAbs)
        = (parseNatDigits (natDec i.natAbs)).map (fun n => -(Int.ofNat n)) := by
      show (if ('-' : Char) = '+' then (parseNatDigits (natDec i.natAbs)).map Int.ofNat
            else if ('-' : Char) = '-' then
              (parseNatDigits (natDec i.natAbs)).map (fun n => -(Int.ofNat n))
            else (parseNatDigits ('-' :: natDec i.natAbs)).map Int.ofNat)
          = (parseNatDigits (natDec i.natAbs)).map (fun n => -(Int.ofNat n))
      rw [if_neg (by decide), if_pos rfl]
    rw [e, parseNatDigits_natDec]
    show some (-(Int.ofNat i.natAbs)) = some i
    congr 1
    have habs : (i.natAbs : Int) = -i := Int.ofNat_natAbs_of_nonpos (le_of_lt h)
    show -((i.natAbs : Int)) = i
    rw [habs, neg_neg]
  · rename_i h
    cases hcr : natDec i.toNat with
    | nil => exact absurd hcr (natDec_ne_nil _)
    | cons c rest =>
      have hc : c.isDigit := mem_natDec_isDigit _ c (hcr ▸ List.mem_cons_self c rest)
      obtain ⟨h1, h2⟩ := isDigit_not_sign c hc
      have e : parseIsize (c :: rest) = (parseNatDigits (c :: rest)).map Int.ofNat := by
        show (if c = '+' then (parseNatDigits rest).map Int.ofNat
              else if c = '-' then (parseNatDigits rest).map (fun n => -(Int.ofNat n))
              else (parseNatDigits (c :: rest)).map Int.ofNat)
            = (parseNatDigits (c :: rest)).map Int.ofNat
        rw [if_neg h1, if_neg h2]
      rw [e, ← hcr, parseNatDigits_natDec]
      show some (Int.ofNat i.toNat) = some i
      congr 1
      show ((i.toNat : Int)) = i
      exact Int.toNat_of_nonneg (not_lt.mp h)

/-- The colon never occurs in the decimal rendering of an integer. -/
theorem intDec_no_colon (i : Int) : ':' ∉ intDec i := by
  unfold intDec
  split
  · intro h
    rcases List.mem_cons.mp h with h | h
    · exact absurd h (by decide)
    · have := mem_natDec_isDigit _ _ h
      revert this
      decide
  · intro h
    have := mem_natDec_isDigit _ _ h
    revert this
    decide

/-- Parsing a residue token recovers the residue. -/
theorem residueFromChars_token (r : Residue) :
    residueFromChars (residueToken r).data = .ok r := by
  cases r <;> rfl

/-- No residue token contains a colon. -/
theorem residueToken_no_colon (r : Residue) : ':' ∉ (residueToken r).data := by
  cases r <;> decide

/-- Splitting the rendered `NodeId` on `':'` yields its four fields, as
long as neither character field is itself a colon. -/
theorem nodeid_split (x : NodeId) (h1 : x.chain_id ≠ ':') (h2 : x.insertion_code ≠ ':') :
    splitCh ':' (nodeIdRenderChars x) =
      [[x.chain_id], intDec x.position, [x.insertion_code], (residueToken x.residue).data] := by
  have m1 : ':' ∉ ([x.chain_id] : List Char) := by
    simp only [List.mem_singleton]
    exact fun hh => h1 hh.symm
  have m3 : ':' ∉ ([x.insertion_code] : List Char) := by
    simp only [List.mem_singleton]
    exact fun hh => h2 hh.symm
  show splitCh ':' ([x.chain_id] ++ ':' :: (intDec x.position ++ ':'
      :: ([x.insertion_code] ++ ':' :: (residueToken x.residue).data))) = _
  rw [splitCh_append _ _ _ m1, splitCh_append _ _ _ (intDec_no_colon _),
    splitCh_append _ _ _ m3, splitCh_of_not_mem _ _ (residueToken_no_colon _)]

/-! ## Claim theorems -/

/-- Claim C1: the `Atom` decoder splits the input on commas; exactly 3
parts that all parse as floats give `Coords` of those components; any
other part count gives `Name` of the entire original string; exactly 3
parts with a failing float parse is a decode error, not a `Name`
fallback.  Concretely, `"12.5,3.0,-4.25"` decodes to
`Coords{12.5, 3.0, -4.25}`, `"CA"` to `Name("CA")`, `"1,2,3,4"` to
`Name("1,2,3,4")`, and `"a,b,c"` is a decode error. -/
theorem atom_decode_spec :
    (∀ s : String, (splitCh ',' s.data).length ≠ 3 → atomFromStr s = .ok (.name s)) ∧
    (∀ (s : String) (a b c : List Char), splitCh ',' s.data = [a, b, c] →
      (∀ x y z : FVal, parseF64 a = some x → parseF64 b = some y → parseF64 c = some z →
        atomFromStr s = .ok (.coords x y z)) ∧
      ((parseF64 a = none ∨ parseF64 b = none ∨ parseF64 c = none) →
        isErr (atomFromStr s) = true)) ∧
    atomFromStr "12.5,3.0,-4.25"
      = .ok (.coords (.num (25 / 2)) (.num 3) (.num (-17 / 4))) ∧
    atomFromStr "CA" = .ok (.name "CA") ∧
    atomFromStr "1,2,3,4" = .ok (.name "1,2,3,4") ∧
    isErr (atomFromStr "a,b,c") = true := by
  refine ⟨?_, ?_, ?_, by decide, by decide, by decide⟩
  · intro s h
    simp only [atomFromStr]
    rcases hs : splitCh ',' s.data with _ | ⟨a, _ | ⟨b, _ | ⟨c, _ | ⟨d, tl⟩⟩⟩⟩ <;>
      first
        | rfl
        | (exfalso; apply h; rw [hs]; rfl)
  · intro s a b c h
    have he : atomFromStr s =
        match parseF64 a, parseF64 b, parseF64 c with
        | some x, some y, some z => .ok (.coords x y z)
        | _, _, _ => .error "invalid float literal" := by
      simp only [atomFromStr]
      rw [h]
    constructor
    · intro x y z hx hy hz
      rw [he, hx, hy, hz]
    · intro hfail
      rw [he]
      rcases hfail with hf | hf | hf <;> rw [hf]
      · rfl
      · cases parseF64 a <;> rfl
      · cases parseF64 a <;> cases parseF64 b <;> rfl
  · rw [show (25 / 2 : ℚ) = mkRat 25 2 from by rw [Rat.mkRat_eq_div]; norm_num,
      show (3 : ℚ) = mkRat 3 1 from by rw [Rat.mkRat_eq_div]; norm_num,
      show (-17 / 4 : ℚ) = mkRat (-17) 4 from by rw [Rat.mkRat_eq_div]; norm_num]
    decide

/-- Witness for C1 at the concrete inputs `"a,b,c"` (3 non-numeric
fields: error) and `"1,2,3,4"` (4 fields: name fallback). -/
theorem atom_decode_spec_witness :
    isErr (atomFromStr "a,b,c") = true ∧ atomFromStr "1,2,3,4" = .ok (.name "1,2,3,4") :=
  ⟨(atom_decode_spec.2.1 "a,b,c" "a".data "b".data "c".data (by decide)).2
      (Or.inl (by decide)),
   atom_decode_spec.1 "1,2,3,4" (by decide)⟩

/-- Claim C2 (amended): round trip `parse (render x) = x` holds for every
constructible `NodeId` whose chain ID and insertion code are not
themselves the colon delimiter, and any string that does not split on
`':'` into exactly four fields is a decode error.  (The unamended claim,
quantified over all characters, fails when a character field is `':'`:
see `nodeid_roundtrip_cex`.) -/
theorem nodeid_roundtrip_amended :
    (∀ x : NodeId, x.chain_id ≠ ':' → x.insertion_code ≠ ':' →
      nodeIdFromStr (nodeIdRender x) = .ok x) ∧
    (∀ s : String, (splitCh ':' s.data).length ≠ 4 → isErr (nodeIdFromStr s) = true) := by
  constructor
  · intro x h1 h2
    have hsplit : splitCh ':' (nodeIdRender x).data =
        [[x.chain_id], intDec x.position, [x.insertion_code],
          (residueToken x.residue).data] := nodeid_split x h1 h2
    simp only [nodeIdFromStr]
    rw [hsplit]
    show (ofOption (parseChar [x.chain_id]) "invalid char").bind
        (fun chain => (ofOption (parseIsize (intDec x.position)) "invalid integer").bind
        (fun pos => (ofOption (parseChar [x.insertion_code]) "invalid char").bind
        (fun ins => (residueFromChars (residueToken x.residue).data).bind
        (fun res => Except.ok ⟨chain, pos, ins, res⟩)))) = Except.ok x
    rw [parseIsize_intDec, residueFromChars_token]
    rfl
  · intro s h
    simp only [nodeIdFromStr]
    rcases hs : splitCh ':' s.data with _ | ⟨a, _ | ⟨b, _ | ⟨c, _ | ⟨d, _ | ⟨e, tl⟩⟩⟩⟩⟩ <;>
      first
        | rfl
        | (exfalso; apply h; rw [hs]; rfl)

/-- Counterexample for C2 as frozen: the constructible `NodeId` with
chain ID `':'` renders to `"::0:A:ALA"`, which splits into five fields
and fails to parse back, so the unrestricted round trip is false. -/
theorem nodeid_roundtrip_cex :
    isErr (nodeIdFromStr (nodeIdRender ⟨':', 0, 'A', .Alanine⟩)) = true := by decide

/-- Witness for C2 (amended) at a concrete `NodeId` with a negative
position and a space insertion code. -/
theorem nodeid_roundtrip_amended_witness :
    nodeIdFromStr (nodeIdRender ⟨'A', -5, ' ', .Serine⟩) = .ok ⟨'A', -5, ' ', .Serine⟩ :=
  nodeid_roundtrip_amended.1 ⟨'A', -5, ' ', .Serine⟩ (by decide) (by decide)

/-- Claim C6: every `Interaction` round-trips through its rendered
`"{main}:{sub1}_{sub2}"` form; a string that does not split on `':'`
into exactly two parts is a decode error, as is one whose second part
does not split on `'_'` into exactly two parts; in particular
`"HBOND_MC_SC"` (missing colon) fails rather than being truncated. -/
theorem interaction_roundtrip_spec :
    (∀ i : Interaction, interactionFromStr (interactionRender i) = .ok i) ∧
    (∀ s : String, (splitCh ':' s.data).length ≠ 2 → isErr (interactionFromStr s) = true) ∧
    (∀ (s : String) (a b : List Char), splitCh ':' s.data = [a, b] →
      (splitCh '_' b).length ≠ 2 → isErr (interactionFromStr s) = true) ∧
    isErr (interactionFromStr "HBOND_MC_SC") = true := by
  refine ⟨?_, ?_, ?_, by decide⟩
  · intro i
    obtain ⟨m, s1, s2⟩ := i
    cases m <;> cases s1 <;> cases s2 <;> decide
  · intro s h
    simp only [interactionFromStr]
    rcases hs : splitCh ':' s.data with _ | ⟨a, _ | ⟨b, _ | ⟨c, tl⟩⟩⟩ <;>
      first
        | rfl
        | (exfalso; apply h; rw [hs]; rfl)
  · intro s a b hs h2
    simp only [interactionFromStr]
    rw [hs]
    show isErr (match splitCh '_' b with
      | [u, v] =>
        (mainTypeFromChars a).bind fun m =>
        (subTypeFromChars u).bind fun s1 =>
        (subTypeFromChars v).bind fun s2 =>
        Except.ok ⟨m, s1, s2⟩
      | _ => (Except.error "Interaction type format must be main:sub1_sub2"
              : Except String Interaction)) = true
    rcases hu : splitCh '_' b with _ | ⟨u, _ | ⟨v, _ | ⟨w, tl⟩⟩⟩ <;>
      first
        | rfl
        | (exfalso; apply h2; rw [hu]; rfl)

/-- Witness for C6 at the malformed input `"HBOND_MC_SC"`, via the
field-count error case. -/
theorem interaction_roundtrip_spec_witness :
    isErr (interactionFromStr "HBOND_MC_SC") = true :=
  interaction_roundtrip_spec.2.1 "HBOND_MC_SC" (by decide)

/-- The sentinel constant is exactly the literal `-999.9`. -/
theorem angleSentinel_eq : angleSentinel = (-999.9 : ℚ) := by
  unfold angleSentinel
  rw [Rat.mkRat_eq_div]
  norm_num

/-- Claim C7: the angle codec renders `None` as the sentinel `-999.9`;
decoding the float `-999.9` gives `None`; decoding any other float `v`
gives `Some v` (e.g. `45.0`); decoding an integer `n` gives `Some (n as
float)` (e.g. `90`). -/
theorem angle_codec_spec :
    angleSerialize none = (-999.9 : ℚ) ∧
    angleDeserialize (.flt (-999.9 : ℚ)) = none ∧
    (∀ q : ℚ, q ≠ -999.9 → angleDeserialize (.flt q) = some q) ∧
    angleDeserialize (.flt 45) = some 45 ∧
    (∀ n : Int, angleDeserialize (.int n) = some (n : ℚ)) ∧
    (∀ n : Nat, angleDeserialize (.uint n) = some (n : ℚ)) ∧
    angleDeserialize (.int 90) = some 90 := by
  have hn : ∀ q : ℚ, q ≠ -999.9 → angleDeserialize (.flt q) = some q := by
    intro q hq
    show (if q = angleSentinel then none else some q) = some q
    rw [if_neg (by rw [angleSentinel_eq]; exact hq)]
  refine ⟨?_, ?_, hn, hn 45 (by norm_num), fun n => rfl, fun n => rfl, ?_⟩
  · show angleSentinel = (-999.9 : ℚ)
    exact angleSentinel_eq
  · show (if (-999.9 : ℚ) = angleSentinel then none else some (-999.9 : ℚ)) = none
    rw [if_pos angleSentinel_eq.symm]
  · show some ((90 : Int) : ℚ) = some (90 : ℚ)
    norm_num

/-- Witness for C7 at the non-sentinel float `45.0`. -/
theorem angle_codec_spec_witness : angleDeserialize (.flt 45) = some 45 :=
  angle_codec_spec.2.2.1 45 (by norm_num)

/-- Claim C9 (implicit): the angle codec is not injective on the
sentinel — `Some (-999.9)` serializes to the same wire float as `None`,
so its round trip collapses to `None`; every other float round-trips. -/
theorem angle_sentinel_collapse :
    angleSerialize (some (-999.9 : ℚ)) = angleSerialize none ∧
    angleDeserialize (.flt (angleSerialize (some (-999.9 : ℚ)))) = none ∧
    (∀ q : ℚ, q ≠ -999.9 →
      angleDeserialize (.flt (angleSerialize (some q))) = some q) := by
  refine ⟨?_, ?_, ?_⟩
  · show (-999.9 : ℚ) = angleSentinel
    exact angleSentinel_eq.symm
  · show (if (-999.9 : ℚ) = angleSentinel then none else some (-999.9 : ℚ)) = none
    rw [if_pos angleSentinel_eq.symm]
  · intro q hq
    show (if q = angleSentinel then none else some q) = some q
    rw [if_neg (by rw [angleSentinel_eq]; exact hq)]

/-- Witness for C9 at the non-sentinel float `45.0`. -/
theorem angle_sentinel_collapse_witness :
    angleDeserialize (.flt (angleSerialize (some (45 : ℚ)))) = some 45 :=
  angle_sentinel_collapse.2.2 45 (by norm_num)

/-- Claim C5: the multipart encoder turns `{pdbName: "1jsu"}` into
exactly one `Text` part, a record with a `NamedFile` under key `"file"`
into exactly one `File` part with those contents and file name, rejects
a bare string at the top level with the not-map-like error, and rejects
a nested record with the nested-map error. -/
theorem multipart_encoder_spec :
    toForm (.record [("pdbName", .str "1jsu")]) = .ok [.text "pdbName" "1jsu"] ∧
    toForm (.record [("file", .namedFile "ATOM..." "x.pdb")])
      = .ok [.filePart "file" "ATOM..." "x.pdb"] ∧
    toForm (.str "1jsu")
      = .error "top-level value to be serialized as multipart should be a map or a struct" ∧
    toForm (.record [("outer", .record [])])
      = .error "can't serialize a map-like value as multipart unless it's at the top level" := by
  refine ⟨by decide, by decide, by decide, by decide⟩

/-- Claim C3: decoding the wire map produced by encoding the settings
recovers the settings, both for the default value and for the
non-default combination `chain = Id('A')`, `interactions = NoSpecific`,
`perform_msa = true`. -/
theorem settings_roundtrip :
    from_wire (to_wire Settings.default) = .ok Settings.default ∧
    from_wire (to_wire { Settings.default with
        chain := .Id 'A', interactions := .NoSpecific, perform_msa := true })
      = .ok { Settings.default with
          chain := .Id 'A', interactions := .NoSpecific, perform_msa := true } := by
  constructor <;> decide

/-- Claim C4: `to_wire` always contains `ringmd = "false"`; for the
default settings it contains `nohetero = "false"`, `nowater = "true"`,
`noenergy = "true"` and omits `msa`; `msa = "true"` is present exactly
when `perform_msa` is set; and `allEdges` / `onlyFirstEdge` /
`nospecific` (value `"true"`) is present exactly when the interaction
selection is `All` / `MostEnergetic` / `NoSpecific` respectively, so the
default selection `Multiple` emits none of the three. -/
theorem to_wire_spec :
    (∀ s : Settings, wireLookup "ringmd" (to_wire s) = some (.vstr "false")) ∧
    wireLookup "nohetero" (to_wire Settings.default) = some (.vstr "false") ∧
    wireLookup "nowater" (to_wire Settings.default) = some (.vstr "true") ∧
    wireLookup "noenergy" (to_wire Settings.default) = some (.vstr "true") ∧
    wireLookup "msa" (to_wire Settings.default) = none ∧
    (∀ s : Settings, wireLookup "msa" (to_wire s)
      = if s.perform_msa then some (.vstr "true") else none) ∧
    (∀ s : Settings, wireLookup "allEdges" (to_wire s)
      = if s.interactions = .All then some (.vstr "true") else none) ∧
    (∀ s : Settings, wireLookup "onlyFirstEdge" (to_wire s)
      = if s.interactions = .MostEnergetic then some (.vstr "true") else none) ∧
    (∀ s : Settings, wireLookup "nospecific" (to_wire s)
      = if s.interactions = .NoSpecific then some (.vstr "true") else none) := by
  refine ⟨?_, by decide, by decide, by decide, by decide, ?_, ?_, ?_, ?_⟩ <;>
    · intro s
      rcases s with ⟨ch, np, it, th, ss, b1, b2, b3, pm⟩
      cases pm <;> cases it <;> rfl

/-- A non-error `Except` carries a value. -/
theorem exists_ok_of_isErr_false {α : Type} (x : Except String α) (h : isErr x = false) :
    ∃ a, x = .ok a := by
  cases x with
  | ok a => exact ⟨a, rfl⟩
  | error m => exact absurd h (by simp [isErr])

/-- A well-formed map entry is consumed by the visitor without error. -/
theorem visitStep_ok_of_entryOk (st : Settings) (e : String × WVal) (h : entryOk e) :
    ∃ st', visitStep st e = .ok st' := by
  obtain ⟨hch, hnp, hss, hth, hbools⟩ := h
  unfold visitStep
  by_cases h1 : e.1 = "chain"
  · rw [if_pos h1]
    obtain ⟨c, hc⟩ := exists_ok_of_isErr_false _ (hch h1)
    rw [hc]
    exact ⟨_, rfl⟩
  rw [if_neg h1]
  by_cases h2 : e.1 = "networkPolicy"
  · rw [if_pos h2]
    obtain ⟨np, hv⟩ := exists_ok_of_isErr_false _ (hnp h2)
    rw [hv]
    exact ⟨_, rfl⟩
  rw [if_neg h2]
  by_cases h3 : e.1 = "allEdges"
  · rw [if_pos h3]
    exact ⟨_, rfl⟩
  rw [if_neg h3]
  by_cases h4 : e.1 = "onlyFirstEdge"
  · rw [if_pos h4]
    exact ⟨_, rfl⟩
  rw [if_neg h4]
  by_cases h5 : e.1 = "nospecific"
  · rw [if_pos h5]
    exact ⟨_, rfl⟩
  rw [if_neg h5]
  by_cases h6 : e.1 = "seqSeparation"
  · rw [if_pos h6]
    obtain ⟨n, hv⟩ := Option.isSome_iff_exists.mp (hss h6)
    rw [hv]
    exact ⟨_, rfl⟩
  rw [if_neg h6]
  by_cases h7 : e.1 = "thresholds"
  · rw [if_pos h7]
    obtain ⟨t, hv⟩ := Option.isSome_iff_exists.mp (hth h7)
    rw [hv]
    exact ⟨_, rfl⟩
  rw [if_neg h7]
  by_cases h8 : e.1 = "nohetero"
  · rw [if_pos h8]
    obtain ⟨b, hv⟩ := Option.isSome_iff_exists.mp (hbools (Or.inl h8))
    rw [hv]
    exact ⟨_, rfl⟩
  rw [if_neg h8]
  by_cases h9 : e.1 = "nowater"
  · rw [if_pos h9]
    obtain ⟨b, hv⟩ := Option.isSome_iff_exists.mp (hbools (Or.inr (Or.inl h9)))
    rw [hv]
    exact ⟨_, rfl⟩
  rw [if_neg h9]
  by_cases h10 : e.1 = "noenergy"
  · rw [if_pos h10]
    obtain ⟨b, hv⟩ := Option.isSome_iff_exists.mp (hbools (Or.inr (Or.inr h10)))
    rw [hv]
    exact ⟨_, rfl⟩
  rw [if_neg h10]
  by_cases h11 : e.1 = "msa"
  · rw [if_pos h11]
    exact ⟨_, rfl⟩
  rw [if_neg h11]
  exact ⟨_, rfl⟩

/-- Folding the visitor over well-formed entries never fails. -/
theorem fromWireAux_ok_of_entryOk :
    ∀ (es : List (String × WVal)) (st : Settings), (∀ e ∈ es, entryOk e) →
      isErr (fromWireAux st es) = false := by
  intro es
  induction es with
  | nil => intro st _; rfl
  | cons e rest ih =>
    intro st h
    obtain ⟨st', hst'⟩ := visitStep_ok_of_entryOk st e (h e (List.mem_cons_self e rest))
    show isErr (match visitStep st e with
      | .ok st'' => fromWireAux st'' rest
      | .error msg => (.error msg : Except String Settings)) = false
    rw [hst']
    exact ih st' (fun e' he' => h e' (List.mem_cons_of_mem e he'))

/-- An entry with an unrecognized key is read and discarded: the visitor
returns the settings unchanged. -/
theorem visitStep_unrecognized (st : Settings) (e : String × WVal)
    (h : e.1 ∉ recognizedKeys) : visitStep st e = .ok st := by
  simp only [recognizedKeys, List.mem_cons, List.not_mem_nil, or_false, not_or] at h
  obtain ⟨k1, k2, k3, k4, k5, k6, k7, k8, k9, k10, k11⟩ := h
  unfold visitStep
  rw [if_neg k1, if_neg k2, if_neg k3, if_neg k4, if_neg k5, if_neg k6, if_neg k7,
    if_neg k8, if_neg k9, if_neg k10, if_neg k11]

/-- Folding the visitor over unrecognized entries leaves the settings
unchanged. -/
theorem fromWireAux_unrecognized :
    ∀ (es : List (String × WVal)) (st : Settings), (∀ e ∈ es, e.1 ∉ recognizedKeys) →
      fromWireAux st es = .ok st := by
  intro es
  induction es with
  | nil => intro st _; rfl
  | cons e rest ih =>
    intro st h
    have hv := visitStep_unrecognized st e (h e (List.mem_cons_self e rest))
    show (match visitStep st e with
      | .ok st'' => fromWireAux st'' rest
      | .error msg => (.error msg : Except String Settings)) = .ok st
    rw [hv]
    exact ih st (fun e' he' => h e' (List.mem_cons_of_mem e he'))

/-- A `map`ped decode that returns `ok` determines the result. -/
theorem map_ok_settings {α : Type} (x : Except String α) (f : α → Settings) (st' : Settings)
    (h : Except.map f x = .ok st') : ∃ a, st' = f a := by
  cases x with
  | ok a => exact ⟨a, (Except.ok.inj h).symm⟩
  | error m => exact Except.noConfusion h

/-- A selection-flag entry always succeeds and sets the interaction
type, whatever its value. -/
theorem visitStep_sel (st : Settings) (e : String × WVal) (t : InteractionType)
    (h : selOf e = some t) : visitStep st e = .ok { st with interactions := t } := by
  unfold selOf at h
  split_ifs at h with h1 h2 h3
  · injection h with h
    subst h
    unfold visitStep
    rw [h1]
    rfl
  · injection h with h
    subst h
    unfold visitStep
    rw [h2]
    rfl
  · injection h with h
    subst h
    unfold visitStep
    rw [h3]
    rfl

/-- A non-selection entry never changes the interaction type. -/
theorem visitStep_nonsel_interactions (st st' : Settings) (e : String × WVal)
    (hsel : selOf e = none) (hv : visitStep st e = .ok st') :
    st'.interactions = st.interactions := by
  unfold selOf at hsel
  split_ifs at hsel with h1 h2 h3
  unfold visitStep at hv
  by_cases hc1 : e.1 = "chain"
  · rw [if_pos hc1] at hv
    obtain ⟨c, hc⟩ := map_ok_settings _ _ _ hv
    subst hc
    rfl
  rw [if_neg hc1] at hv
  by_cases hc2 : e.1 = "networkPolicy"
  · rw [if_pos hc2] at hv
    obtain ⟨np, hnp⟩ := map_ok_settings _ _ _ hv
    subst hnp
    rfl
  rw [if_neg hc2] at hv
  rw [if_neg h1, if_neg h2, if_neg h3] at hv
  by_cases hc6 : e.1 = "seqSeparation"
  · rw [if_pos hc6] at hv
    obtain ⟨n, hn⟩ := map_ok_settings _ _ _ hv
    subst hn
    rfl
  rw [if_neg hc6] at hv
  by_cases hc7 : e.1 = "thresholds"
  · rw [if_pos hc7] at hv
    obtain ⟨t, ht⟩ := map_ok_settings _ _ _ hv
    subst ht
    rfl
  rw [if_neg hc7] at hv
  by_cases hc8 : e.1 = "nohetero"
  · rw [if_pos hc8] at hv
    obtain ⟨b, hb⟩ := map_ok_settings _ _ _ hv
    subst hb
    rfl
  rw [if_neg hc8] at hv
  by_cases hc9 : e.1 = "nowater"
  · rw [if_pos hc9] at hv
    obtain ⟨b, hb⟩ := map_ok_settings _ _ _ hv
    subst hb
    rfl
  rw [if_neg hc9] at hv
  by_cases hc10 : e.1 = "noenergy"
  · rw [if_pos hc10] at hv
    obtain ⟨b, hb⟩ := map_ok_settings _ _ _ hv
    subst hb
    rfl
  rw [if_neg hc10] at hv
  by_cases hc11 : e.1 = "msa"
  · rw [if_pos hc11] at hv
    have := Except.ok.inj hv
    subst this
    rfl
  rw [if_neg hc11] at hv
  have := Except.ok.inj hv
  subst this
  rfl

/-- The interaction type a decode produces is the one selected by the
last selection-flag entry, or the starting value when none occurs. -/
theorem fromWireAux_interactions :
    ∀ (es : List (String × WVal)) (st s : Settings),
      fromWireAux st es = .ok s →
      s.interactions = (lastSel es).getD st.interactions := by
  intro es
  induction es with
  | nil =>
    intro st s h
    rw [Except.ok.inj h]
    rfl
  | cons e rest ih =>
    intro st s h
    have hm : (match visitStep st e with
      | .ok st'' => fromWireAux st'' rest
      | .error msg => (.error msg : Except String Settings)) = .ok s := h
    cases hv : visitStep st e with
    | error m =>
      rw [hv] at hm
      exact Except.noConfusion hm
    | ok st' =>
      rw [hv] at hm
      have hs := ih st' s hm
      show s.interactions = (match lastSel rest with
        | some t => some t
        | none => selOf e).getD st.interactions
      cases hsel : selOf e with
      | some t =>
        have hset := visitStep_sel st e t hsel
        rw [hset] at hv
        have hst' : ({ st with interactions := t } : Settings) = st' := Except.ok.inj hv
        subst hst'
        rw [hs]
        cases hlr : lastSel rest with
        | some t2 => rfl
        | none => rfl
      | none =>
        have hpres := visitStep_nonsel_interactions st st' e hsel hv
        rw [hs, hpres]
        cases hlr : lastSel rest with
        | some t2 => rfl
        | none => rfl

/-- Claim C10 (implicit): during decoding the keys `msa`, `allEdges`,
`onlyFirstEdge` and `nospecific` are pure presence flags — their values
are read and discarded, so any value (a `"false"` string, the empty
string, anything) sets `perform_msa` or switches the interaction type;
and when several selection flags occur in one map, the last one iterated
wins (a map with none of them keeps the default `Multiple`). -/
theorem presence_flags_spec :
    (∀ (st : Settings) (v : WVal),
      visitStep st ("msa", v) = .ok { st with perform_msa := true }) ∧
    (∀ (st : Settings) (v : WVal),
      visitStep st ("allEdges", v) = .ok { st with interactions := .All }) ∧
    (∀ (st : Settings) (v : WVal),
      visitStep st ("onlyFirstEdge", v) = .ok { st with interactions := .MostEnergetic }) ∧
    (∀ (st : Settings) (v : WVal),
      visitStep st ("nospecific", v) = .ok { st with interactions := .NoSpecific }) ∧
    (∀ (es : List (String × WVal)) (s : Settings), from_wire es = .ok s →
      s.interactions = (lastSel es).getD InteractionType.Multiple) := by
  refine ⟨fun st v => rfl, fun st v => rfl, fun st v => rfl, fun st v => rfl, ?_⟩
  intro es s h
  exact fromWireAux_interactions es Settings.default s h

/-- Witness for C10: two selection flags with non-`"true"` values — the
last one (`nospecific`) wins. -/
theorem presence_flags_spec_witness :
    ({ Settings.default with interactions := .NoSpecific } : Settings).interactions
      = (lastSel [("allEdges", .vstr "x"), ("nospecific", .vstr "false")]).getD
          InteractionType.Multiple :=
  presence_flags_spec.2.2.2.2 [("allEdges", .vstr "x"), ("nospecific", .vstr "false")]
    { Settings.default with interactions := .NoSpecific } (by decide)

end RingApi
